import Mathlib

/-!
Shallow embedding of `gif_compressor` (src/src/main.rs) and proofs about it.

Conventions used throughout:
* f64 sizes (KB) are modelled as exact rationals; all sizes appearing on the
  success paths of the program are finite non-negative doubles, for which the
  bit-pattern order used by `SharedState` coincides with the numeric order
  (proved in the f64-order theorem below).
* filesystem paths are the abstract type `FPath`; the filesystem is an
  association list from paths to an abstract content token.
* external effects (gifsicle runs, decoding, temp-file creation) are driven by
  environment records whose fields give each call's outcome; the model records
  an event trace (temp-file creations/deletions, compressor invocations,
  copies, thread spawns).
* concurrency is modelled by the sequential interleaving in spawn order: each
  worker runs to completion before the next starts, and results arrive on the
  channel in that order.  Statements below concern control flow and artifact
  lifecycle, which this interleaving exhibits faithfully.
-/

namespace GifCompressor

/-- Error type of the program (`enum GifError`, src/main.rs lines 16-44).
`Io` stands for the `Io(std::io::Error)` variant, `Image` for
`Image(image::error::ImageError)`. -/
inductive GifError where
  | Io : GifError
  | Image : GifError
  | NoFrames : GifError
  | GifsicleNotFound : GifError
  | GifsicleExecFailed (stderr : String) : GifError
  | InputFileNotFound (path : String) : GifError
  | NoValidResults : GifError
  | TempDirFailed (msg : String) : GifError
  | Other (msg : String) : GifError
deriving DecidableEq, Repr

/-- `SharedState::update_best_size` (src/main.rs lines 228-249), sequential
semantics of the compare-and-swap loop on the `AtomicU64`: a candidate bit
pattern replaces the stored value iff it is strictly smaller (`size_bits >=
current` returns `false` without storing).  Returns the acceptance flag and
the new stored value. -/
def updateBestSize (sizeBits current : Nat) : Bool × Nat :=
  if current ≤ sizeBits then (false, current) else (true, sizeBits)

/-- Stored `best_size` after a sequence of `update_best_size` calls starting
from `init`. -/
def runUpdates (init : Nat) (cands : List Nat) : Nat :=
  cands.foldl (fun cur s => (updateBestSize s cur).2) init

/-- The initial `best_size` sentinel (`u64::MAX`, src/main.rs line 223). -/
def u64MAX : Nat := 2 ^ 64 - 1

/-- Bit pattern of a non-negative f64 (sign bit 0) with biased exponent `e`
and mantissa `m`: the reinterpretation `f64::to_bits` used by
`update_best_size`. -/
def f64Bits (e m : Nat) : Nat := e * 2 ^ 52 + m

/-- Numeric value of that f64, scaled by `2 ^ 1074` so that it is a natural
number: a subnormal (`e = 0`) has value `m * 2 ^ (-1074)`, a normal number
`(2 ^ 52 + m) * 2 ^ (e - 1075)`. -/
def f64Val (e m : Nat) : Nat := if e = 0 then m else (2 ^ 52 + m) * 2 ^ (e - 1)

/-- `min_frames` (src/main.rs line 694): `max(3, frame_count * pct / 100)`.
The source computes the product and quotient in f64 and truncates to usize;
for the argument ranges in play the f64 computation is exact up to the
truncation, so this is the Nat floor. -/
def minFramesOf (frameCount pct : Nat) : Nat := max 3 (frameCount * pct / 100)

/-- `max_skip` (src/main.rs lines 700-701):
`max(2, min(10, ceil(frame_count / min_frames)))`. -/
def maxSkipOf (frameCount pct : Nat) : Nat :=
  let m := minFramesOf frameCount pct
  max 2 (min 10 ((frameCount + m - 1) / m))

/-- The per-strategy delay (src/main.rs line 706):
`(100 * skip / frame_count) as u16 + 10`; the value never exceeds u16 range
for the strides the generator emits. -/
def delayOf (frameCount skip : Nat) : Nat := 100 * skip / frameCount + 10

/-- A compression strategy (src/main.rs lines 199-202). -/
structure Strategy where
  skip : Nat
  delay : Nat
deriving DecidableEq, Repr

/-- The strategy list built in `optimize_gif` (src/main.rs lines 697-721):
one strategy per stride in `[2, max_skip]`, plus, when `frame_count > 30`,
the aggressive strides `max_skip + 5` and `max_skip + 10` guarded by
`frame_count / skip >= min_frames`. -/
def strategiesOf (frameCount pct : Nat) : List Strategy :=
  let m := minFramesOf frameCount pct
  let maxSkip := maxSkipOf frameCount pct
  let base := (List.range' 2 (maxSkip - 1)).map
    (fun s => { skip := s, delay := delayOf frameCount s })
  let aggr :=
    if 30 < frameCount then
      ([maxSkip + 5, maxSkip + 10].filter (fun s => m ≤ frameCount / s)).map
        (fun s => { skip := s, delay := delayOf frameCount s })
    else []
  base ++ aggr

/-- Number of frames kept by `(0..total).step_by(skip)`
(src/main.rs line 85): the indices `i < total` with `i % skip = 0`. -/
def retainedCount (total skip : Nat) : Nat :=
  ((List.range total).filter (fun i => i % skip == 0)).length

/-- Frame selection of `extract_frames` (src/main.rs lines 83-96): keep the
frames at indices `0, skip, 2 * skip, ...`; if nothing was selected keep the
first frame when there is one, otherwise fail with `NoFrames`. -/
def selectedFrames {α : Type} (frames : List α) (skip : Nat) : List α :=
  ((List.range frames.length).filter
      (fun i => i % skip == 0)).filterMap (fun i => frames[i]?)

def selectFrames {α : Type} (frames : List α) (skip : Nat) :
    Except GifError (List α) :=
  if (selectedFrames frames skip).isEmpty then
    match frames with
    | [] => Except.error GifError.NoFrames
    | a :: _ => Except.ok [a]
  else Except.ok (selectedFrames frames skip)

/-- Abstract filesystem paths: the input file, the requested output path, and
the temporary files (identified by a freshness counter). -/
inductive FPath where
  | input : FPath
  | output : FPath
  | temp (id : Nat) : FPath
deriving DecidableEq, Repr

/-- The filesystem: an association list from paths to an abstract content
token (only existence and the copied content matter to the claims). -/
abbrev Fs := List (FPath × Nat)

def fsGet : Fs → FPath → Option Nat
  | [], _ => none
  | e :: rest, p => if e.1 = p then some e.2 else fsGet rest p

def fsRemove : Fs → FPath → Fs
  | [], _ => []
  | e :: rest, p => if e.1 = p then fsRemove rest p else e :: fsRemove rest p

def fsSet (fs : Fs) (p : FPath) (c : Nat) : Fs := (p, c) :: fsRemove fs p

def fsDel (fs : Fs) (p : FPath) : Fs := fsRemove fs p

def fsExists (fs : Fs) (p : FPath) : Bool := (fsGet fs p).isSome

/-- `struct TempFile` (src/main.rs lines 163-165): an owned path to a kept
(`NamedTempFile::keep`) temporary file.  The struct has no `Drop`
implementation; the file is only removed by an explicit `cleanup`. -/
structure TempFile where
  path : Nat
deriving DecidableEq, Repr

/-- `impl Clone for TempFile` (src/main.rs lines 190-196): clones the path. -/
def cloneTempFile (t : TempFile) : TempFile := { path := t.path }

/-- `TempFile::cleanup` (src/main.rs lines 181-186): remove the backing file
if it exists.  Returns the new filesystem and whether a file was removed. -/
def cleanupFs (t : TempFile) (fs : Fs) : Fs × Bool :=
  if fsExists fs (FPath.temp t.path) then (fsDel fs (FPath.temp t.path), true)
  else (fs, false)

/-- Events recorded while the model runs. -/
inductive Ev where
  | create (id : Nat)
  | del (id : Nat)
  | delNoop (id : Nat)
  | extract
  | baseOpt
  | lossyTrial (level : Nat)
  | probe
  | baselineOpt
  | copy (src dst : FPath)
  | spawn (i : Nat)
deriving DecidableEq, Repr

/-- `struct SharedState` (src/main.rs lines 212-217): the target-found flag
and the best size.  The source stores the size as the f64 bit pattern in an
`AtomicU64`; for the finite non-negative sizes submitted to it the bit-pattern
order coincides with the numeric order (f64-order theorem below), so the run
model keeps the numeric value. -/
structure SState where
  foundTarget : Bool
  best : ℚ
deriving DecidableEq, Repr

/-- `f64::MAX` as an exact rational, `(2 ^ 53 - 1) * 2 ^ 971` written as a
literal (the `size` of failed results, src/main.rs line 288 etc.). -/
def F64MAX : ℚ := 179769313486231570814527423731704356798070567525844996598917476803157260780028538760589558632766878171540458953514382464234321326889464182768467546703537516986049910576551282076245490090389328944075868508455133942304583236903222948165808559332123348274797826204144723168738177180919299881250404026184124858368

/-- The initial `best_size` (`u64::MAX` bits, src/main.rs line 223) viewed
through the bit-pattern order: a sentinel strictly above every finite
non-negative f64 value; `2 ^ 1100` written as a literal. -/
def SENTINEL : ℚ := 13582985290493858492773514283592667786034938469317445497485196697278130927542418487205392083207560592298578262953847383475038725543234929971155548342800628721885763499406390331782864144164680730766837160526223176512798435772129956553355286032203080380775759732320198985094884004069116123084147875437183658467465148948790552744165376

/-- `update_best_size` at the value level (see `SState`). -/
def updateBestQ (s : ℚ) (sh : SState) : Bool × SState :=
  if sh.best ≤ s then (false, sh) else (true, { sh with best := s })

/-- Global state of one `optimize_gif` run: filesystem, freshness counter for
temporary paths, event trace, shared search state. -/
structure RunState where
  fs : Fs
  nextId : Nat
  trace : List Ev
  shared : SState
deriving DecidableEq, Repr

def emit (st : RunState) (e : Ev) : RunState := { st with trace := st.trace ++ [e] }

/-- `SharedState::set_found_target` (src/main.rs lines 258-260). -/
def setFound (st : RunState) : RunState :=
  { st with shared := { st.shared with foundTarget := true } }

/-- `TempFile::cleanup` acting on the run state, recording whether a file was
actually removed. -/
def cleanup (t : TempFile) (st : RunState) : RunState :=
  if fsExists st.fs (FPath.temp t.path) then
    { st with fs := fsDel st.fs (FPath.temp t.path), trace := st.trace ++ [Ev.del t.path] }
  else { st with trace := st.trace ++ [Ev.delNoop t.path] }

def cleanupOpt (t : Option TempFile) (st : RunState) : RunState :=
  match t with
  | some f => cleanup f st
  | none => st

/-- An external tool writing its output file at `p`. -/
def writeFile (st : RunState) (p : FPath) : RunState := { st with fs := fsSet st.fs p 0 }

/-- `fs::copy`: the call sites in the source all check (or guarantee) that the
source path exists; a missing source leaves the content unchanged. -/
def copyFile (st : RunState) (src dst : FPath) : RunState :=
  match fsGet st.fs src with
  | some c => { st with fs := fsSet st.fs dst c, trace := st.trace ++ [Ev.copy src dst] }
  | none => { st with trace := st.trace ++ [Ev.copy src dst] }

/-- Outcomes of the external calls made by one worker
(`process_strategy`): the result of `get_frame_count`, whether each
`NamedTempFile::new` + `TempFile::new` pair succeeds (indexed by the attempt
number within the worker), the outcome of `extract_frames` (`none` means
success), the size of the extraction output, whether the `-O3` base
optimization run succeeds, its output size, and for each lossy level the size
its trial produces (`none`: the run failed or its size was unreadable). -/
structure WorkerEnv where
  frameCount : Option Nat
  tempOk : Nat → Bool
  extractOutcome : Option GifError
  extractedSize : Option ℚ
  baseOptRunOk : Bool
  optSize : Option ℚ
  lossyRun : Nat → Option ℚ

/-- `struct StrategyResult` (src/main.rs lines 205-209). -/
structure StrategyResult where
  size : ℚ
  file : Option TempFile
  success : Bool
deriving DecidableEq, Repr

/-- The failure result used on every worker error path:
`StrategyResult { size: f64::MAX, file: None, success: false }`. -/
def failResult : StrategyResult := { size := F64MAX, file := none, success := false }

/-- Creation of a fresh kept temporary file. -/
def mkTempFresh (st : RunState) : TempFile × RunState :=
  ({ path := st.nextId },
   { st with fs := fsSet st.fs (FPath.temp st.nextId) 0,
             nextId := st.nextId + 1,
             trace := st.trace ++ [Ev.create st.nextId] })

/-- `NamedTempFile::new()` followed by `TempFile::new` inside a worker; `k`
is the index of this creation attempt within the worker. -/
def mkTemp (env : WorkerEnv) (k : Nat) (st : RunState) :
    Option TempFile × RunState × Nat :=
  if env.tempOk k then
    let (tf, st1) := mkTempFresh st
    (some tf, st1, k + 1)
  else (none, st, k + 1)

/-- Creation of the temporary files of one lossy batch
(src/main.rs lines 494-508): a failed creation is only logged, the level is
then absent from the batch. -/
def mkChunkTemps (env : WorkerEnv) :
    List Nat → RunState → Nat → List (Nat × TempFile) × RunState × Nat
  | [], st, k => ([], st, k)
  | level :: rest, st, k =>
    match mkTemp env k st with
    | (some tf, st1, k1) =>
      match mkChunkTemps env rest st1 k1 with
      | (l, st2, k2) => ((level, tf) :: l, st2, k2)
    | (none, st1, k1) => mkChunkTemps env rest st1 k1

/-- The trial loop of one batch (src/main.rs lines 515-553): every
(level, file) pair launches a gifsicle `--lossy` run reading from the
worker's current best file; a run that succeeds and whose output size is
readable pushes `(level, size)` onto `results`. -/
def runTrials (env : WorkerEnv) :
    List (Nat × TempFile) → RunState → List (Nat × ℚ) × RunState
  | [], st => ([], st)
  | (level, tf) :: rest, st =>
    let st1 := emit st (Ev.lossyTrial level)
    match env.lossyRun level with
    | some size =>
      let st2 := writeFile st1 (FPath.temp tf.path)
      match runTrials env rest st2 with
      | (rs, st3) => ((level, size) :: rs, st3)
    | none => runTrials env rest st1

/-- The result list `runTrials` produces, as a function of the environment
and the batch alone. -/
def trialResults (env : WorkerEnv) (tfs : List (Nat × TempFile)) : List (Nat × ℚ) :=
  tfs.filterMap (fun lt => (env.lossyRun lt.1).map (fun s => (lt.1, s)))

/-- The result-processing loop of one batch (src/main.rs lines 555-586):
a result at or under target is adopted only if strictly better, sets the
shared flag unconditionally and stops the processing; an improving result
over target replaces (and cleans) the previous best. -/
def processResults (target : ℚ) (tfs : List (Nat × TempFile)) :
    List (Nat × ℚ) → ℚ → Option TempFile → RunState →
    ℚ × Option TempFile × RunState
  | [], bs, bf, st => (bs, bf, st)
  | (level, size) :: rest, bs, bf, st =>
    if size ≤ target then
      match tfs.find? (fun lt => lt.1 == level) with
      | some lt =>
        if size < bs then
          (size, some (cloneTempFile lt.2), setFound (cleanupOpt bf st))
        else (bs, bf, setFound st)
      | none => (bs, bf, setFound st)
    else if size < bs then
      match tfs.find? (fun lt => lt.1 == level) with
      | some lt =>
        processResults target tfs rest size (some (cloneTempFile lt.2))
          (cleanupOpt bf st)
      | none => processResults target tfs rest bs bf st
    else processResults target tfs rest bs bf st

/-- Cleanup of the batch files not selected as best
(src/main.rs lines 593-602). -/
def cleanupUnselected (tfs : List (Nat × TempFile)) (bf : Option TempFile)
    (st : RunState) : RunState :=
  tfs.foldl
    (fun s lt =>
      match bf with
      | some b => if b.path ≠ lt.2.path then cleanup lt.2 s else s
      | none => cleanup lt.2 s)
    st

/-- The code after the sweep loop (src/main.rs lines 604-619): the result
carries a clone of the local best while the original handle is passed to
`mem::forget` (a no-op on the filesystem: `TempFile` has no `Drop`). -/
def finishSweep (bs : ℚ) (bf : Option TempFile) (st : RunState) :
    StrategyResult × RunState :=
  ({ size := bs, file := bf.map cloneTempFile, success := true }, st)

/-- `lossy_levels` (src/main.rs line 475). -/
def lossyLevels : List Nat := [30, 60, 90, 120, 150, 180, 210, 240]

/-- `chunks(2)` of a list. -/
def chunks2 : List Nat → List (List Nat)
  | [] => []
  | [a] => [[a]]
  | a :: b :: rest => [a, b] :: chunks2 rest

/-- `lossy_levels.chunks(chunk_size)` with `chunk_size = 2`
(src/main.rs lines 478-480). -/
def lossyChunks : List (List Nat) := chunks2 lossyLevels

/-- The batch loop of the lossy sweep (src/main.rs lines 480-603).  Note the
source order: the batch's temporary files are created and all of its trials
are run before any size is compared; when a result reaches the target, the
check at line 589 leaves the loop before the unselected-file cleanup at
lines 593-602. -/
def lossySweep (env : WorkerEnv) (target : ℚ) :
    List (List Nat) → RunState → Nat → ℚ → Option TempFile →
    StrategyResult × RunState
  | [], st, _, bs, bf => finishSweep bs bf st
  | chunk :: rest, st, k, bs, bf =>
    if st.shared.foundTarget then ({ size := bs, file := bf, success := true }, st)
    else
      match mkChunkTemps env chunk st k with
      | (tfs, st1, k1) =>
        match bf with
        | none => finishSweep bs none st1
        | some b =>
          match runTrials env tfs st1 with
          | (results, st2) =>
            match processResults target tfs results bs (some b) st2 with
            | (bs2, bf2, st3) =>
              if st3.shared.foundTarget then finishSweep bs2 bf2 st3
              else
                lossySweep env target rest (cleanupUnselected tfs bf2 st3) k1 bs2 bf2

/-- `process_strategy` (src/main.rs lines 269-620).  The `get_frame_count`
call at line 298 only feeds a log message and is not modelled; `_strat`
carries the stride and delay that parametrize the (abstracted) extraction. -/
def processStrategy (env : WorkerEnv) (_strat : Strategy) (target : ℚ)
    (st : RunState) : StrategyResult × RunState :=
  if st.shared.foundTarget then (failResult, st)
  else
    match mkTemp env 0 st with
    | (none, st1, _) => (failResult, st1)
    | (some tempFrames, st1, k1) =>
      if st1.shared.foundTarget then (failResult, st1)
      else
        match env.extractOutcome with
        | some _ => (failResult, emit st1 Ev.extract)
        | none =>
          let st2 := writeFile (emit st1 Ev.extract) (FPath.temp tempFrames.path)
          if st2.shared.foundTarget then (failResult, st2)
          else
            match env.extractedSize with
            | none => (failResult, st2)
            | some sz =>
              if sz < 1 then (failResult, st2)
              else
                match mkTemp env k1 st2 with
                | (none, st3, _) => (failResult, st3)
                | (some tempOpt, st3, k2) =>
                  if st3.shared.foundTarget then (failResult, st3)
                  else if !env.baseOptRunOk then (failResult, emit st3 Ev.baseOpt)
                  else
                    let st4 := writeFile (emit st3 Ev.baseOpt) (FPath.temp tempOpt.path)
                    let st5 := cleanup tempFrames st4
                    match env.optSize with
                    | none => (failResult, st5)
                    | some framesSize =>
                      if framesSize ≤ target then
                        ({ size := framesSize, file := some tempOpt, success := true },
                         setFound st5)
                      else
                        lossySweep env target lossyChunks st5 k2 framesSize (some tempOpt)

/-- Outcomes of the coordinator's own external calls (`optimize_gif`):
the input size, the input frame count (`none`: the decode fails), the
gifsicle version probe, the baseline temp-file creation, the baseline `-O3`
run (`none`: io error launching it, `some false`: non-zero exit), the
baseline output size, the configured thread count (only logged: the source
spawns one thread per strategy), whether reading the final output size
succeeds, and the environment of each worker. -/
structure CoordEnv where
  inputSize : Option ℚ
  frameCount : Option Nat
  gifsicleOk : Bool
  baseTempOk : Bool
  baselineRun : Option Bool
  baselineSize : Option ℚ
  threads : Nat
  outSizeOk : Bool
  workerEnv : Nat → WorkerEnv

/-- The spawn loop (src/main.rs lines 740-770) under the sequential
interleaving: each worker runs to completion in spawn order, then the
closure body after `process_strategy` (lines 755-763) merges its result into
the shared state; the send order equals the spawn order. -/
def runWorkers (env : CoordEnv) (target : ℚ) :
    List Strategy → Nat → RunState → List StrategyResult × RunState
  | [], _, st => ([], st)
  | strat :: rest, i, st =>
    let st1 := emit st (Ev.spawn i)
    match processStrategy (env.workerEnv i) strat target st1 with
    | (r, st2) =>
      let st3 :=
        if r.success && decide (r.size < st2.shared.best) then
          match updateBestQ r.size st2.shared with
          | (isBetter, sh) =>
            let st' := { st2 with shared := sh }
            if isBetter && decide (r.size ≤ target) then setFound st' else st'
        else st2
      match runWorkers env target rest (i + 1) st3 with
      | (rs, st4) => (r :: rs, st4)

/-- The receive loop (src/main.rs lines 776-827) over the channel contents in
arrival order.  A failed result's file joins the cleanup list; the first
at-target success is adopted, sets the flag and breaks the loop; an improving
result replaces the running best (the superseded file joins the cleanup
list); any other file joins the cleanup list.  Returns
`(best_size, best_file, found_solution, files_to_cleanup, state)`. -/
def foldResults (target : ℚ) :
    List StrategyResult → ℚ → Option TempFile → List TempFile → RunState →
    ℚ × Option TempFile × Bool × List TempFile × RunState
  | [], bs, bf, cl, st => (bs, bf, false, cl, st)
  | r :: rest, bs, bf, cl, st =>
    if !r.success then
      match r.file with
      | some f => foldResults target rest bs bf (cl ++ [f]) st
      | none => foldResults target rest bs bf cl st
    else
      match r.file with
      | none => foldResults target rest bs bf cl st
      | some rf =>
        if r.size ≤ target then
          ((r.size, some rf, true,
            (match bf with | some old => cl ++ [old] | none => cl), setFound st))
        else if r.size < bs then
          foldResults target rest r.size (some rf)
            (match bf with | some old => cl ++ [old] | none => cl) st
        else foldResults target rest bs bf (cl ++ [rf]) st

/-- The final block of `optimize_gif` (src/main.rs lines 842-891): copy the
winning file to the output path; if its backing file no longer exists fall
back to the baseline-optimization path if that still exists, else fail with
`Other("无法找到有效的临时文件进行复制")`; after a successful copy read the
final output size (`outOk`), then delete the winner handle and the cleanup
list.  Without any best file, clean the list and fail with
`NoValidResults`. -/
def finalize (st : RunState) (bf : Option TempFile) (cl : List TempFile)
    (baselineId : Nat) (outOk : Bool) : Except GifError Unit × RunState :=
  match bf with
  | some best =>
    match
      (if fsExists st.fs (FPath.temp best.path) then
        some (copyFile st (FPath.temp best.path) FPath.output)
      else if fsExists st.fs (FPath.temp baselineId) then
        some (copyFile st (FPath.temp baselineId) FPath.output)
      else none) with
    | none => (Except.error (GifError.Other "无法找到有效的临时文件进行复制"), st)
    | some st1 =>
      if !outOk then (Except.error GifError.Io, st1)
      else
        let st2 := cleanup best st1
        (Except.ok (), cl.foldl (fun s f => cleanup f s) st2)
  | none =>
    (Except.error GifError.NoValidResults, cl.foldl (fun s f => cleanup f s) st)

/-- `optimize_gif` (src/main.rs lines 623-892) under the sequential
interleaving.  A `get_frame_count` failure is modelled as `GifError.Image`
(the decoder error; the file was already opened for the size probe). -/
def optimizeGif (env : CoordEnv) (target : ℚ) (pct : Nat) (st : RunState) :
    Except GifError Unit × RunState :=
  match env.inputSize with
  | none => (Except.error GifError.Io, st)
  | some originalSize =>
    if originalSize ≤ target then (Except.ok (), copyFile st FPath.input FPath.output)
    else
      match env.frameCount with
      | none => (Except.error GifError.Image, st)
      | some frameCount =>
        let st1 := emit st Ev.probe
        if !env.gifsicleOk then (Except.error GifError.GifsicleNotFound, st1)
        else if !env.baseTempOk then (Except.error GifError.Io, st1)
        else
          match mkTempFresh st1 with
          | (tempOpt, st2) =>
            let st3 := emit st2 Ev.baselineOpt
            match env.baselineRun with
            | none => (Except.error GifError.Io, st3)
            | some false => (Except.error (GifError.GifsicleExecFailed ""), st3)
            | some true =>
              let st4 := writeFile st3 (FPath.temp tempOpt.path)
              match env.baselineSize with
              | none => (Except.error GifError.Io, st4)
              | some optSize =>
                if optSize ≤ target then
                  (Except.ok (), copyFile st4 (FPath.temp tempOpt.path) FPath.output)
                else
                  let st5 := { st4 with shared := (updateBestQ optSize st4.shared).2 }
                  match runWorkers env target (strategiesOf frameCount pct) 0 st5 with
                  | (results, st6) =>
                    match foldResults target results optSize (some tempOpt) [] st6 with
                    | (_, bf, _, cl, st7) =>
                      finalize st7 bf cl tempOpt.path env.outSizeOk

/-- State at the start of a run: only the input file exists (content `c`),
the shared state is as built by `SharedState::new` (src/main.rs
lines 220-225). -/
def initState (c : Nat) : RunState :=
  { fs := [(FPath.input, c)], nextId := 0, trace := [],
    shared := { foundTarget := false, best := SENTINEL } }

deriving instance DecidableEq for Except

/-- A worker whose frame extraction fails (everything before it succeeds). -/
def wenvExtractFail : WorkerEnv :=
  { frameCount := some 4, tempOk := fun _ => true,
    extractOutcome := some GifError.NoFrames, extractedSize := none,
    baseOptRunOk := false, optSize := none, lossyRun := fun _ => none }

/-- A run on a 600 KB four-frame input against a 500 KB target whose single
worker (stride 2) fails during extraction and whose baseline pass produces
600 KB. -/
def cenvLeak : CoordEnv :=
  { inputSize := some 600, frameCount := some 4, gifsicleOk := true,
    baseTempOk := true, baselineRun := some true, baselineSize := some 600,
    threads := 4, outSizeOk := true, workerEnv := fun _ => wenvExtractFail }

/-- A worker that reaches the lossy sweep: extraction yields 50 KB, the base
optimization 600 KB (over the 500 KB target), the lossy=30 trial 450 KB (at
target) and the lossy=60 trial 550 KB. -/
def wenvSweep : WorkerEnv :=
  { frameCount := some 4, tempOk := fun _ => true,
    extractOutcome := none, extractedSize := some 50,
    baseOptRunOk := true, optSize := some 600,
    lossyRun := fun l => if l = 30 then some 450 else if l = 60 then some 550 else none }

/-- The coordinator state used by the C6 counterexample: neither the winner's
temp path 2 nor the baseline temp path 0 exists any more. -/
def stGone : RunState :=
  { fs := [(FPath.input, 7)], nextId := 4, trace := [],
    shared := { foundTarget := true, best := 450 } }

/-- The lossy levels whose trials a trace records, in launch order. -/
def trialsOf (tr : List Ev) : List Nat :=
  tr.filterMap (fun e => match e with | Ev.lossyTrial l => some l | _ => none)

/-! ### Helper lemmas -/

theorem foldlMin_le (l : List Nat) : ∀ a : Nat, List.foldl min a l ≤ a := by
  induction l with
  | nil => intro a; simp
  | cons b t ih =>
    intro a
    rw [List.foldl_cons]
    exact le_trans (ih (min a b)) (min_le_left a b)

theorem updateBestSize_snd (a init : Nat) : (updateBestSize a init).2 = min init a := by
  by_cases hc : init ≤ a
  · simp [updateBestSize, hc, Nat.min_def]
  · rw [Nat.min_def, if_neg hc]
    simp [updateBestSize, hc]

theorem runUpdates_eq_foldl (cands : List Nat) :
    ∀ init, runUpdates init cands = List.foldl min init cands := by
  induction cands with
  | nil => intro init; rfl
  | cons a t ih =>
    intro init
    unfold runUpdates at ih ⊢
    rw [List.foldl_cons, List.foldl_cons, updateBestSize_snd]
    exact ih (min init a)

theorem retainedCount_succ (n s : Nat) :
    retainedCount (n + 1) s = retainedCount n s + (if n % s = 0 then 1 else 0) := by
  unfold retainedCount
  rw [List.range_succ, List.filter_append]
  by_cases h : n % s = 0 <;> simp [h]

theorem retainedCount_eq_ceil (s : Nat) (hs : 0 < s) (f : Nat) :
    retainedCount f s = (f + s - 1) / s := by
  induction f with
  | zero =>
    have h0 : (s - 1) / s = 0 := Nat.div_eq_of_lt (by omega)
    simp [retainedCount, h0]
  | succ n ih =>
    rw [retainedCount_succ, ih]
    rcases n with _ | k
    · have h1 : (s - 1) / s = 0 := Nat.div_eq_of_lt (by omega)
      have h2 : 0 + 1 + s - 1 = s := by omega
      simp [h1, h2, Nat.div_self hs]
    · have e1 : k + 1 + s - 1 = k + s := by omega
      have e2 : k + 1 + 1 + s - 1 = k + 1 + s := by omega
      rw [e1, e2, Nat.add_div_right _ hs, Nat.add_div_right _ hs, Nat.succ_div]
      by_cases hd : s ∣ k + 1
      · have hm : (k + 1) % s = 0 := Nat.dvd_iff_mod_eq_zero.mp hd
        simp [hd, hm]
      · have hm : ¬(k + 1) % s = 0 := fun hh => hd (Nat.dvd_iff_mod_eq_zero.mpr hh)
        simp [hd, hm]

theorem one_le_retainedCount {f s : Nat} (hf : 0 < f) (hs : 0 < s) :
    1 ≤ retainedCount f s := by
  rw [retainedCount_eq_ceil s hs, Nat.one_le_div_iff hs]
  omega

theorem div_le_retainedCount (f : Nat) {s : Nat} (hs : 0 < s) :
    f / s ≤ retainedCount f s := by
  rw [retainedCount_eq_ceil s hs]
  exact Nat.div_le_div_right (by omega)

theorem strategiesOf_skip {f p : Nat} {strat : Strategy}
    (h : strat ∈ strategiesOf f p) :
    (2 ≤ strat.skip ∧ strat.skip ≤ maxSkipOf f p) ∨
    (maxSkipOf f p < strat.skip ∧ minFramesOf f p ≤ f / strat.skip) := by
  have h2 : 2 ≤ maxSkipOf f p := le_max_left _ _
  unfold strategiesOf at h
  rw [List.mem_append] at h
  rcases h with h | h
  · left
    rw [List.mem_map] at h
    obtain ⟨s, hs, rfl⟩ := h
    rw [List.mem_range'] at hs
    obtain ⟨i, hi, rfl⟩ := hs
    exact ⟨by dsimp only; omega, by dsimp only; omega⟩
  · by_cases h30 : 30 < f
    · simp only [if_pos h30, List.mem_map, List.mem_filter] at h
      obtain ⟨s, ⟨hmem, hguard⟩, rfl⟩ := h
      have hg : minFramesOf f p ≤ f / s := of_decide_eq_true hguard
      simp only [List.mem_cons, List.not_mem_nil, or_false] at hmem
      right
      rcases hmem with rfl | rfl
      · exact ⟨by dsimp only; omega, hg⟩
      · exact ⟨by dsimp only; omega, hg⟩
    · simp [h30] at h

/-! ### Claims C2, C3, C4 -/

/-- Claim C2, counterexample: cloning a `TempFile` handle does duplicate
deletion rights — the clone of the handle for the backing file at temp path 0
can itself delete that file (`cleanup` through the clone removes it), with
exactly the effect the original handle's `cleanup` would have. -/
theorem c2_clone_deletes :
    (cleanupFs (cloneTempFile { path := 0 }) [(FPath.temp 0, 0)]).1 = [] ∧
    (cleanupFs (cloneTempFile { path := 0 }) [(FPath.temp 0, 0)]).2 = true ∧
    cleanupFs (cloneTempFile { path := 0 }) [(FPath.temp 0, 0)] =
      cleanupFs { path := 0 } [(FPath.temp 0, 0)] := by decide

/-- Claim C2, amended: cloning a `TempFile` copies its path, so the clone is
the very same handle value and carries the same deletion capability: its
`cleanup` has exactly the effect of the original's and deletes the backing
file whenever it exists.  The transfer out of the worker
(src/main.rs lines 605-612) is clone-then-`mem::forget`; since `TempFile`
has no `Drop`, exclusivity is maintained only by scope discipline, not by
the handle. -/
theorem c2_clone_shares_delete (t : TempFile) (fs : Fs)
    (h : fsExists fs (FPath.temp t.path) = true) :
    cloneTempFile t = t ∧
    cleanupFs (cloneTempFile t) fs = cleanupFs t fs ∧
    (cleanupFs (cloneTempFile t) fs).2 = true := by
  refine ⟨rfl, rfl, ?_⟩
  simp [cleanupFs, cloneTempFile, h]

/-- Witness for the amended C2 at a concrete handle and filesystem. -/
theorem c2_clone_shares_delete_wit :
    cloneTempFile { path := 3 } = ({ path := 3 } : TempFile) ∧
    cleanupFs (cloneTempFile { path := 3 }) [(FPath.temp 3, 5)] =
      cleanupFs { path := 3 } [(FPath.temp 3, 5)] ∧
    (cleanupFs (cloneTempFile { path := 3 }) [(FPath.temp 3, 5)]).2 = true :=
  c2_clone_shares_delete { path := 3 } [(FPath.temp 3, 5)] (by decide)

/-- Claim C3, counterexample: at frame count 2 and percentage 10 the
generator emits stride 2, whose retained-frame count 1 is below
`max 1 min_frames = 3`. -/
theorem c3_stride_below_min :
    ∃ strat ∈ strategiesOf 2 10,
      retainedCount 2 strat.skip < max 1 (minFramesOf 2 10) := by decide

/-- Claim C3, amended: for every frame count `f ≥ 2` and percentage `p`,
every stride the generator emits retains at least one frame, and every
aggressive stride (one exceeding `max_skip`) retains at least `min_frames`
frames; the base strides `2..max_skip` may retain fewer than `min_frames`
(at small frame counts, as the counterexample shows). -/
theorem c3_retained_bounds (f p : Nat) (strat : Strategy) (hf : 2 ≤ f)
    (h : strat ∈ strategiesOf f p) :
    1 ≤ retainedCount f strat.skip ∧
    (maxSkipOf f p < strat.skip → minFramesOf f p ≤ retainedCount f strat.skip) := by
  have hsk := strategiesOf_skip h
  have h2 : 2 ≤ maxSkipOf f p := le_max_left _ _
  have hs0 : 0 < strat.skip := by rcases hsk with ⟨a, _⟩ | ⟨a, _⟩ <;> omega
  refine ⟨one_le_retainedCount (by omega) hs0, fun hlt => ?_⟩
  rcases hsk with ⟨_, hle⟩ | ⟨_, hguard⟩
  · omega
  · exact le_trans hguard (div_le_retainedCount f hs0)

/-- Witness for the amended C3: the 100-frame, 1-percent configuration,
whose aggressive stride 15 is emitted. -/
theorem c3_retained_bounds_wit :
    1 ≤ retainedCount 100 15 ∧
    (maxSkipOf 100 1 < 15 → minFramesOf 100 1 ≤ retainedCount 100 15) := by
  have h := c3_retained_bounds 100 1 { skip := 15, delay := 25 } (by decide) (by decide)
  exact h

/-- Claim C4: `update_best_size` accepts a candidate iff it is strictly below
the stored value, the stored value becomes the minimum of the two, after any
sequence of calls the stored value is the minimum of the initial value and
all submitted candidates, and the stored value never increases as further
candidates arrive. -/
theorem c4_update_best_size (init s cur c : Nat) (cands : List Nat) :
    ((updateBestSize s cur).1 = true ↔ s < cur) ∧
    (updateBestSize s cur).2 = min s cur ∧
    runUpdates init cands = List.foldl min init cands ∧
    runUpdates init cands ≤ init ∧
    runUpdates init (cands ++ [c]) ≤ runUpdates init cands := by
  refine ⟨?_, ?_, runUpdates_eq_foldl cands init, ?_, ?_⟩
  · unfold updateBestSize
    split <;> simp <;> omega
  · rw [updateBestSize_snd, Nat.min_comm]
  · rw [runUpdates_eq_foldl]
    exact foldlMin_le cands init
  · rw [runUpdates_eq_foldl, runUpdates_eq_foldl, List.foldl_append]
    simp

/-! ### Claim C10: the bit-pattern order on finite non-negative f64 -/

theorem f64Val_lt_of_bits_lt {e1 m1 e2 m2 : Nat} (hm1 : m1 < 2 ^ 52)
    (hm2 : m2 < 2 ^ 52) (h : f64Bits e1 m1 < f64Bits e2 m2) :
    f64Val e1 m1 < f64Val e2 m2 := by
  have hK : (2 : Nat) ^ 52 = 4503599627370496 := by norm_num
  unfold f64Bits at h
  rw [hK] at h hm1 hm2
  have he : e1 ≤ e2 := by
    by_contra hc
    push_neg at hc
    have h2 : (e2 + 1) * 4503599627370496 ≤ e1 * 4503599627370496 :=
      Nat.mul_le_mul_right _ hc
    omega
  rcases Nat.lt_or_ge e1 e2 with hlt | hge
  · have he2 : 1 ≤ e2 := by omega
    have hv2 : 2 ^ 52 * 2 ^ (e2 - 1) ≤ f64Val e2 m2 := by
      unfold f64Val
      rw [if_neg (by omega : ¬ e2 = 0)]
      exact Nat.mul_le_mul_right _ (by omega)
    rcases Nat.eq_zero_or_pos e1 with h0 | h1
    · have hv1 : f64Val e1 m1 = m1 := by unfold f64Val; rw [h0]; simp
      have hmono : (2 : Nat) ^ 52 ≤ 2 ^ 52 * 2 ^ (e2 - 1) :=
        Nat.le_mul_of_pos_right _ (Nat.pos_pow_of_pos _ (by norm_num))
      rw [hv1]
      calc m1 < 2 ^ 52 := by rw [hK]; omega
        _ ≤ 2 ^ 52 * 2 ^ (e2 - 1) := hmono
        _ ≤ f64Val e2 m2 := hv2
    · obtain ⟨k, rfl⟩ : ∃ k, e1 = k + 1 := ⟨e1 - 1, by omega⟩
      have hv1 : f64Val (k + 1) m1 = (2 ^ 52 + m1) * 2 ^ k := by
        unfold f64Val
        rw [if_neg (by omega : ¬ k + 1 = 0)]
        norm_num
      rw [hv1]
      calc (2 ^ 52 + m1) * 2 ^ k
          < (2 ^ 52 + 2 ^ 52) * 2 ^ k := by
            refine (Nat.mul_lt_mul_right (Nat.pos_pow_of_pos _ (by norm_num))).mpr ?_
            rw [hK]; omega
        _ = 2 ^ 52 * 2 ^ (k + 1) := by
            rw [pow_succ']
            ring
        _ ≤ 2 ^ 52 * 2 ^ (e2 - 1) := by
            exact Nat.mul_le_mul_left _ (Nat.pow_le_pow_right (by norm_num) (by omega))
        _ ≤ f64Val e2 m2 := hv2
  · have heq : e1 = e2 := by omega
    subst heq
    have hm : m1 < m2 := by omega
    unfold f64Val
    rcases Nat.eq_zero_or_pos e1 with h0 | h1
    · simp [h0, hm]
    · simp only [if_neg (by omega : ¬ e1 = 0)]
      have hp : 0 < 2 ^ (e1 - 1) := Nat.pos_pow_of_pos _ (by norm_num)
      refine (Nat.mul_lt_mul_right hp).mpr ?_
      omega

theorem f64Bits_inj {e1 m1 e2 m2 : Nat} (hm1 : m1 < 2 ^ 52) (hm2 : m2 < 2 ^ 52)
    (h : f64Bits e1 m1 = f64Bits e2 m2) : e1 = e2 ∧ m1 = m2 := by
  have hK : (2 : Nat) ^ 52 = 4503599627370496 := by norm_num
  unfold f64Bits at h
  rw [hK] at h hm1 hm2
  omega

theorem f64Bits_lt_u64MAX {e m : Nat} (he : e ≤ 2046) (hm : m < 2 ^ 52) :
    f64Bits e m < u64MAX := by
  have hK : (2 : Nat) ^ 52 = 4503599627370496 := by norm_num
  have hU : u64MAX = 18446744073709551615 := by norm_num [u64MAX]
  unfold f64Bits
  rw [hK] at hm ⊢
  rw [hU]
  have h2 : e * 4503599627370496 ≤ 2046 * 4503599627370496 :=
    Nat.mul_le_mul_right _ he
  omega

/-- Claim C10: for finite non-negative f64 values (biased exponent at most
2046, sign bit 0) the unsigned order on the bit patterns coincides with the
numeric order, the `u64::MAX` sentinel is above every such bit pattern, and
therefore the first finite non-negative candidate submitted to
`update_best_size` against the initial sentinel is accepted. -/
theorem c10_bits_order (e1 m1 e2 m2 : Nat) (he1 : e1 ≤ 2046) (hm1 : m1 < 2 ^ 52)
    (he2 : e2 ≤ 2046) (hm2 : m2 < 2 ^ 52) :
    (f64Bits e1 m1 < f64Bits e2 m2 ↔ f64Val e1 m1 < f64Val e2 m2) ∧
    f64Bits e1 m1 < u64MAX ∧
    (updateBestSize (f64Bits e1 m1) u64MAX).1 = true := by
  have hb := f64Bits_lt_u64MAX he1 hm1
  refine ⟨⟨fun h => f64Val_lt_of_bits_lt hm1 hm2 h, fun h => ?_⟩, hb, ?_⟩
  · rcases Nat.lt_trichotomy (f64Bits e1 m1) (f64Bits e2 m2) with hlt | heq | hgt
    · exact hlt
    · obtain ⟨rfl, rfl⟩ := f64Bits_inj hm1 hm2 heq
      omega
    · exact absurd (f64Val_lt_of_bits_lt hm2 hm1 hgt) (by omega)
  · unfold updateBestSize
    rw [if_neg (by omega)]

/-- Witness for C10 at the bit patterns of 1.0 (e 1023, m 0) and 2.0
(e 1024, m 0). -/
theorem c10_bits_order_wit :
    (f64Bits 1023 0 < f64Bits 1024 0 ↔ f64Val 1023 0 < f64Val 1024 0) ∧
    f64Bits 1023 0 < u64MAX ∧
    (updateBestSize (f64Bits 1023 0) u64MAX).1 = true :=
  c10_bits_order 1023 0 1024 0 (by norm_num) (by norm_num) (by norm_num) (by norm_num)

/-! ### Claims C7, C8, C9 -/

/-- Claim C7: when the input size is already at or under the target,
`optimize_gif` copies the input to the output byte for byte and returns
success; the complete event trace is that single copy — no temporary file is
created, no worker is spawned, and gifsicle is never invoked (not even the
version probe or the baseline pass). -/
theorem c7_short_circuit (env : CoordEnv) (target : ℚ) (pct : Nat) (c : Nat)
    (s : ℚ) (hs : env.inputSize = some s) (hle : s ≤ target) :
    (optimizeGif env target pct (initState c)).1 = Except.ok () ∧
    (optimizeGif env target pct (initState c)).2.trace =
      [Ev.copy FPath.input FPath.output] ∧
    fsGet (optimizeGif env target pct (initState c)).2.fs FPath.output = some c ∧
    fsGet (optimizeGif env target pct (initState c)).2.fs FPath.input = some c := by
  refine ⟨?_, ?_, ?_, ?_⟩ <;>
    simp [optimizeGif, hs, if_pos hle, copyFile, initState, fsGet, fsSet, fsRemove]

/-- Witness for C7: a 300 KB input against a 500 KB target. -/
theorem c7_short_circuit_wit :
    (optimizeGif
        { inputSize := some 300, frameCount := some 4, gifsicleOk := false,
          baseTempOk := true, baselineRun := some true, baselineSize := some 200,
          threads := 4, outSizeOk := true,
          workerEnv := fun _ =>
            { frameCount := some 4, tempOk := fun _ => true,
              extractOutcome := none, extractedSize := none,
              baseOptRunOk := true, optSize := none, lossyRun := fun _ => none } }
        500 10 (initState 7)).1 = Except.ok () ∧
    (optimizeGif
        { inputSize := some 300, frameCount := some 4, gifsicleOk := false,
          baseTempOk := true, baselineRun := some true, baselineSize := some 200,
          threads := 4, outSizeOk := true,
          workerEnv := fun _ =>
            { frameCount := some 4, tempOk := fun _ => true,
              extractOutcome := none, extractedSize := none,
              baseOptRunOk := true, optSize := none, lossyRun := fun _ => none } }
        500 10 (initState 7)).2.trace = [Ev.copy FPath.input FPath.output] ∧
    fsGet (optimizeGif
        { inputSize := some 300, frameCount := some 4, gifsicleOk := false,
          baseTempOk := true, baselineRun := some true, baselineSize := some 200,
          threads := 4, outSizeOk := true,
          workerEnv := fun _ =>
            { frameCount := some 4, tempOk := fun _ => true,
              extractOutcome := none, extractedSize := none,
              baseOptRunOk := true, optSize := none, lossyRun := fun _ => none } }
        500 10 (initState 7)).2.fs FPath.output = some 7 ∧
    fsGet (optimizeGif
        { inputSize := some 300, frameCount := some 4, gifsicleOk := false,
          baseTempOk := true, baselineRun := some true, baselineSize := some 200,
          threads := 4, outSizeOk := true,
          workerEnv := fun _ =>
            { frameCount := some 4, tempOk := fun _ => true,
              extractOutcome := none, extractedSize := none,
              baseOptRunOk := true, optSize := none, lossyRun := fun _ => none } }
        500 10 (initState 7)).2.fs FPath.input = some 7 :=
  c7_short_circuit _ 500 10 7 300 rfl (by norm_num)

/-- Claim C8: when the input exceeds the target (and it decodes), a failing
gifsicle probe makes `optimize_gif` fail with `GifsicleNotFound`
immediately: the trace is the probe alone, so no temporary file was created
and no worker thread was spawned. -/
theorem c8_gifsicle_missing (env : CoordEnv) (target : ℚ) (pct : Nat) (c : Nat)
    (s : ℚ) (n : Nat) (hs : env.inputSize = some s) (hgt : target < s)
    (hn : env.frameCount = some n) (hg : env.gifsicleOk = false) :
    (optimizeGif env target pct (initState c)).1 =
      Except.error GifError.GifsicleNotFound ∧
    (optimizeGif env target pct (initState c)).2.trace = [Ev.probe] := by
  have hnle : ¬s ≤ target := not_le.mpr hgt
  simp only [optimizeGif, hs, hn, hg, if_neg hnle]
  refine ⟨rfl, ?_⟩
  simp [emit, initState]

/-- Witness for C8: a 600 KB input, 500 KB target, absent compressor. -/
theorem c8_gifsicle_missing_wit :
    (optimizeGif
        { inputSize := some 600, frameCount := some 4, gifsicleOk := false,
          baseTempOk := true, baselineRun := some true, baselineSize := some 200,
          threads := 4, outSizeOk := true,
          workerEnv := fun _ =>
            { frameCount := some 4, tempOk := fun _ => true,
              extractOutcome := none, extractedSize := none,
              baseOptRunOk := true, optSize := none, lossyRun := fun _ => none } }
        500 10 (initState 7)).1 = Except.error GifError.GifsicleNotFound ∧
    (optimizeGif
        { inputSize := some 600, frameCount := some 4, gifsicleOk := false,
          baseTempOk := true, baselineRun := some true, baselineSize := some 200,
          threads := 4, outSizeOk := true,
          workerEnv := fun _ =>
            { frameCount := some 4, tempOk := fun _ => true,
              extractOutcome := none, extractedSize := none,
              baseOptRunOk := true, optSize := none, lossyRun := fun _ => none } }
        500 10 (initState 7)).2.trace = [Ev.probe] :=
  c8_gifsicle_missing _ 500 10 7 600 4 rfl (by norm_num) rfl rfl

/-- Claim C9: frame extraction at stride `skip ≥ 1` from a non-empty frame
sequence selects a non-empty frame list whose first frame is the sequence's
first frame (even when the sequence is shorter than the stride); a
zero-frame sequence makes `extract_frames` fail with `NoFrames`, and an
extraction failure makes the worker return a `Failed`
(`success = false`) outcome. -/
theorem c9_extract_first_frame {α : Type} (frames : List α) (skip : Nat)
    (env : WorkerEnv) (strat : Strategy) (target : ℚ) (st : RunState)
    (_hskip : 1 ≤ skip) (hflag : st.shared.foundTarget = false)
    (htmp : env.tempOk 0 = true)
    (hfail : env.extractOutcome = some GifError.NoFrames) :
    (frames ≠ [] → ∃ l, selectFrames frames skip = Except.ok l ∧ l ≠ [] ∧
      l.head? = frames.head?) ∧
    (frames = [] → selectFrames frames skip = Except.error GifError.NoFrames) ∧
    (processStrategy env strat target st).1.success = false := by
  refine ⟨?_, ?_, ?_⟩
  · intro hne
    rcases frames with _ | ⟨a, tl⟩
    · exact absurd rfl hne
    · have hsel : ∃ r, selectedFrames (a :: tl) skip = a :: r := by
        unfold selectedFrames
        rw [List.length_cons, List.range_succ_eq_map,
          List.filter_cons_of_pos (by simp),
          List.filterMap_cons_some (show (a :: tl)[0]? = some a by simp)]
        exact ⟨_, rfl⟩
      obtain ⟨r, hr⟩ := hsel
      refine ⟨a :: r, ?_, by simp, by simp⟩
      unfold selectFrames
      rw [hr]
      simp
  · intro he
    subst he
    simp [selectFrames, selectedFrames]
  · simp only [processStrategy, hflag, mkTemp, htmp, if_true, mkTempFresh,
      Bool.false_eq_true, if_false, hfail]
    rfl

/-- Witness for C9: three frames at stride 5, and a worker whose extraction
fails with `NoFrames`. -/
theorem c9_extract_first_frame_wit :
    (∃ l, selectFrames ([10, 11, 12] : List Nat) 5 = Except.ok l ∧ l ≠ [] ∧
      l.head? = ([10, 11, 12] : List Nat).head?) ∧
    (processStrategy
        { frameCount := some 0, tempOk := fun _ => true,
          extractOutcome := some GifError.NoFrames, extractedSize := none,
          baseOptRunOk := true, optSize := none, lossyRun := fun _ => none }
        { skip := 2, delay := 60 } 500 (initState 7)).1.success = false :=
  ⟨(c9_extract_first_frame [10, 11, 12] 5
      { frameCount := some 0, tempOk := fun _ => true,
        extractOutcome := some GifError.NoFrames, extractedSize := none,
        baseOptRunOk := true, optSize := none, lossyRun := fun _ => none }
      { skip := 2, delay := 60 } 500 (initState 7)
      (by norm_num) rfl rfl rfl).1 (by simp),
    (c9_extract_first_frame ([] : List Nat) 5
      { frameCount := some 0, tempOk := fun _ => true,
        extractOutcome := some GifError.NoFrames, extractedSize := none,
        baseOptRunOk := true, optSize := none, lossyRun := fun _ => none }
      { skip := 2, delay := 60 } 500 (initState 7)
      (by norm_num) rfl rfl rfl).2.2⟩

/-! ### Claims C1, C5 (counterexample), C6 -/

/-- Claim C1 fails on the code: in the `cenvLeak` run the worker creates its
extraction temp file (id 1), fails, and returns without deleting it;
`optimize_gif` then returns success with the file still on disk — the
artifact was created, never promoted and never deleted. -/
theorem c1_leak_run :
    (optimizeGif cenvLeak 500 10 (initState 7)).1 = Except.ok () ∧
    Ev.create 1 ∈ (optimizeGif cenvLeak 500 10 (initState 7)).2.trace ∧
    fsExists (optimizeGif cenvLeak 500 10 (initState 7)).2.fs (FPath.temp 1) = true ∧
    Ev.del 1 ∉ (optimizeGif cenvLeak 500 10 (initState 7)).2.trace := by decide

/-- Claim C5, counterexample: in the `wenvSweep` worker the lossy=30 trial
produces 450 KB ≤ 500 KB (the target), yet the trace shows the lossy=60
trial was still launched after it — the levels are processed in chunks of
two and both trials of a chunk run before any size is examined — so the
sweep does not stop immediately after the trial that reached the target. -/
theorem c5_trial_after_target :
    wenvSweep.lossyRun 30 = some 450 ∧ ((450 : ℚ) ≤ 500) ∧
    (processStrategy wenvSweep { skip := 2, delay := 60 } 500 (initState 7)).2.trace =
      [Ev.create 0, Ev.extract, Ev.create 1, Ev.baseOpt, Ev.del 0,
       Ev.create 2, Ev.create 3, Ev.lossyTrial 30, Ev.lossyTrial 60, Ev.del 1] ∧
    (processStrategy wenvSweep { skip := 2, delay := 60 } 500 (initState 7)).1.size = 450 ∧
    (processStrategy wenvSweep { skip := 2, delay := 60 } 500
      (initState 7)).2.shared.foundTarget = true := by decide

/-- Claim C6, counterexample: with the winning artifact's backing file and
the baseline file both gone, the final block fails with
`Other("无法找到有效的临时文件进行复制")`, not with `NoValidResults`. -/
theorem c6_error_is_other :
    (finalize stGone (some { path := 2 }) [] 0 true).1 =
      Except.error (GifError.Other "无法找到有效的临时文件进行复制") ∧
    (finalize stGone (some { path := 2 }) [] 0 true).1 ≠
      Except.error GifError.NoValidResults := by decide

theorem trace_mono_cleanup (t : TempFile) (st : RunState) (e : Ev)
    (h : e ∈ st.trace) : e ∈ (cleanup t st).trace := by
  unfold cleanup
  split <;> simp [h]

theorem trace_mono_cleanup_foldl (cl : List TempFile) :
    ∀ (st : RunState) (e : Ev), e ∈ st.trace →
      e ∈ (cl.foldl (fun s f => cleanup f s) st).trace := by
  induction cl with
  | nil => intro st e h; exact h
  | cons f t ih =>
    intro st e h
    exact ih (cleanup f st) e (trace_mono_cleanup f st e h)

/-- Claim C6, amended: when the winning artifact's backing file no longer
exists, the final block copies the baseline artifact instead if that file
still exists (and succeeds); if the baseline file is also gone it fails —
but with the generic `Other` error, not with `NoValidResults`
(`NoValidResults` is returned only when there is no best artifact at all). -/
theorem c6_fallback (st : RunState) (b : TempFile) (cl : List TempFile)
    (baselineId : Nat) (hb : fsExists st.fs (FPath.temp b.path) = false) :
    (fsExists st.fs (FPath.temp baselineId) = true →
      (finalize st (some b) cl baselineId true).1 = Except.ok () ∧
      Ev.copy (FPath.temp baselineId) FPath.output ∈
        (finalize st (some b) cl baselineId true).2.trace) ∧
    (fsExists st.fs (FPath.temp baselineId) = false →
      (finalize st (some b) cl baselineId true).1 =
        Except.error (GifError.Other "无法找到有效的临时文件进行复制")) := by
  have hcp : Ev.copy (FPath.temp baselineId) FPath.output ∈
      (copyFile st (FPath.temp baselineId) FPath.output).trace := by
    unfold copyFile
    split <;> simp
  constructor
  · intro hbl
    refine ⟨?_, ?_⟩
    · unfold finalize
      simp [hb, hbl]
    · unfold finalize
      simp only [hb, hbl, Bool.false_eq_true, if_false, if_true, Bool.not_true]
      exact trace_mono_cleanup_foldl cl _ _ (trace_mono_cleanup b _ _ hcp)
  · intro hbl
    unfold finalize
    simp [hb, hbl]

/-- Witness for the amended C6: winner path 9 gone, baseline path 3 alive. -/
theorem c6_fallback_wit :
    (finalize
        { fs := [(FPath.temp 3, 0)], nextId := 4, trace := [],
          shared := { foundTarget := false, best := 450 } }
        (some { path := 9 }) [] 3 true).1 = Except.ok () ∧
    Ev.copy (FPath.temp 3) FPath.output ∈
      (finalize
        { fs := [(FPath.temp 3, 0)], nextId := 4, trace := [],
          shared := { foundTarget := false, best := 450 } }
        (some { path := 9 }) [] 3 true).2.trace :=
  (c6_fallback
    { fs := [(FPath.temp 3, 0)], nextId := 4, trace := [],
      shared := { foundTarget := false, best := 450 } }
    { path := 9 } [] 3 (by decide)).1 (by decide)

/-! ### Claim C5, amended: chunk-level stop of the lossy sweep -/

theorem trialsOf_append (a b : List Ev) :
    trialsOf (a ++ b) = trialsOf a ++ trialsOf b := by
  simp [trialsOf]

theorem trialsOf_cleanup (t : TempFile) (st : RunState) :
    trialsOf (cleanup t st).trace = trialsOf st.trace := by
  unfold cleanup
  split <;> simp [trialsOf_append, trialsOf]

theorem trialsOf_cleanupOpt (t : Option TempFile) (st : RunState) :
    trialsOf (cleanupOpt t st).trace = trialsOf st.trace := by
  cases t with
  | none => rfl
  | some f => exact trialsOf_cleanup f st

theorem trialsOf_mkTemp (env : WorkerEnv) (k : Nat) (st : RunState) :
    trialsOf (mkTemp env k st).2.1.trace = trialsOf st.trace := by
  unfold mkTemp mkTempFresh
  split <;> simp [trialsOf_append, trialsOf]

theorem trialsOf_mkChunkTemps (env : WorkerEnv) :
    ∀ (chunk : List Nat) (st : RunState) (k : Nat),
      trialsOf (mkChunkTemps env chunk st k).2.1.trace = trialsOf st.trace := by
  intro chunk
  induction chunk with
  | nil => intro st k; rfl
  | cons level rest ih =>
    intro st k
    have h5 := trialsOf_mkTemp env k st
    simp only [mkChunkTemps]
    rcases h : mkTemp env k st with ⟨otf, st1, k1⟩
    rw [h] at h5
    cases otf with
    | none =>
      rw [ih st1 k1]
      exact h5
    | some tf =>
      rw [ih st1 k1]
      exact h5

theorem mkChunkTemps_levels (env : WorkerEnv) :
    ∀ (chunk : List Nat) (st : RunState) (k : Nat) (lt : Nat × TempFile),
      lt ∈ (mkChunkTemps env chunk st k).1 → lt.1 ∈ chunk := by
  intro chunk
  induction chunk with
  | nil => intro st k lt h; simp [mkChunkTemps] at h
  | cons level rest ih =>
    intro st k lt h
    simp only [mkChunkTemps] at h
    rcases hm : mkTemp env k st with ⟨otf, st1, k1⟩
    rw [hm] at h
    cases otf with
    | none => exact List.mem_cons_of_mem _ (ih st1 k1 lt h)
    | some tf =>
      rcases List.mem_cons.mp h with h' | h'
      · rw [h']; exact List.mem_cons_self _ _
      · exact List.mem_cons_of_mem _ (ih st1 k1 lt h')

theorem runTrials_fst (env : WorkerEnv) :
    ∀ (tfs : List (Nat × TempFile)) (st : RunState),
      (runTrials env tfs st).1 = trialResults env tfs := by
  intro tfs
  induction tfs with
  | nil => intro st; rfl
  | cons lt rest ih =>
    intro st
    rcases lt with ⟨level, tf⟩
    cases h : env.lossyRun level with
    | none => simp [runTrials, trialResults, List.filterMap_cons, h, ih]
    | some size => simp [runTrials, trialResults, List.filterMap_cons, h, ih]

theorem runTrials_trace (env : WorkerEnv) :
    ∀ (tfs : List (Nat × TempFile)) (st : RunState),
      trialsOf (runTrials env tfs st).2.trace =
        trialsOf st.trace ++ tfs.map (fun lt => lt.1) := by
  intro tfs
  induction tfs with
  | nil => intro st; simp [runTrials]
  | cons lt rest ih =>
    intro st
    rcases lt with ⟨level, tf⟩
    have hemit : trialsOf (emit st (Ev.lossyTrial level)).trace =
        trialsOf st.trace ++ [level] := by
      simp [emit, trialsOf_append, trialsOf]
    cases h : env.lossyRun level with
    | none =>
      simp only [runTrials, h]
      rw [ih (emit st (Ev.lossyTrial level)), hemit]
      simp
    | some size =>
      simp only [runTrials, h]
      rw [ih (writeFile (emit st (Ev.lossyTrial level)) (FPath.temp tf.path))]
      have hw : trialsOf (writeFile (emit st (Ev.lossyTrial level))
          (FPath.temp tf.path)).trace = trialsOf st.trace ++ [level] := hemit
      rw [hw]
      simp

theorem processResults_trace (target : ℚ) (tfs : List (Nat × TempFile)) :
    ∀ (res : List (Nat × ℚ)) (bs : ℚ) (bf : Option TempFile) (st : RunState),
      trialsOf (processResults target tfs res bs bf st).2.2.trace =
        trialsOf st.trace := by
  intro res
  induction res with
  | nil => intro bs bf st; rfl
  | cons q rest ih =>
    intro bs bf st
    rcases q with ⟨level, size⟩
    simp only [processResults]
    split
    · split
      · split
        · exact trialsOf_cleanupOpt bf st
        · rfl
      · rfl
    · split
      · split
        · rw [ih]
          exact trialsOf_cleanupOpt bf st
        · exact ih bs bf st
      · exact ih bs bf st

theorem processResults_found (target : ℚ) (tfs : List (Nat × TempFile)) :
    ∀ (res : List (Nat × ℚ)) (bs : ℚ) (bf : Option TempFile) (st : RunState),
      (∃ q ∈ res, q.2 ≤ target) →
      (processResults target tfs res bs bf st).2.2.shared.foundTarget = true := by
  intro res
  induction res with
  | nil => intro bs bf st h; simp at h
  | cons q rest ih =>
    intro bs bf st h
    rcases q with ⟨level, size⟩
    simp only [processResults]
    split
    · split
      · split
        · rfl
        · rfl
      · rfl
    · rename_i h1
      have hrest : ∃ q ∈ rest, q.2 ≤ target := by
        rcases h with ⟨q, hq, hle⟩
        rcases List.mem_cons.mp hq with rfl | hq'
        · exact absurd hle h1
        · exact ⟨q, hq', hle⟩
      split
      · split
        · exact ih _ _ _ hrest
        · exact ih bs bf st hrest
      · exact ih bs bf st hrest

/-- Claim C5, amended: the lossy levels are processed in chunks of two and
all trials of a chunk are launched before any size is examined.  When some
trial of the current chunk produces a size at or under the target, the
worker sets the shared target-found flag and launches no lossy trial of any
later chunk: every trial the sweep ever launches is from the current chunk
(or was already in the trace).  Within the result processing a trial is
adopted as best only if it strictly improves on the current best. -/
theorem c5_chunk_stop (env : WorkerEnv) (target : ℚ) (chunk : List Nat)
    (rest : List (List Nat)) (st : RunState) (k : Nat) (bs : ℚ) (b : TempFile)
    (h0 : st.shared.foundTarget = false)
    (hhit : ∃ q ∈ trialResults env (mkChunkTemps env chunk st k).1, q.2 ≤ target) :
    (lossySweep env target (chunk :: rest) st k bs (some b)).2.shared.foundTarget
      = true ∧
    ∀ l ∈ trialsOf (lossySweep env target (chunk :: rest) st k bs (some b)).2.trace,
      l ∈ trialsOf st.trace ∨ l ∈ chunk := by
  simp only [lossySweep, h0, Bool.false_eq_true, if_false]
  rcases hmk : mkChunkTemps env chunk st k with ⟨tfs, st1, k1⟩
  rw [hmk] at hhit
  dsimp only at hhit ⊢
  have htr1 : trialsOf st1.trace = trialsOf st.trace := by
    have h' := trialsOf_mkChunkTemps env chunk st k
    rw [hmk] at h'
    exact h'
  have hlv : ∀ lt ∈ tfs, lt.1 ∈ chunk := by
    intro lt hlt
    have h' := mkChunkTemps_levels env chunk st k lt
    rw [hmk] at h'
    exact h' hlt
  rcases hrt : runTrials env tfs st1 with ⟨results, st2⟩
  dsimp only
  have hres : results = trialResults env tfs := by
    have h' := runTrials_fst env tfs st1
    rw [hrt] at h'
    exact h'
  have htr2 : trialsOf st2.trace = trialsOf st.trace ++ tfs.map (fun lt => lt.1) := by
    have h' := runTrials_trace env tfs st1
    rw [hrt] at h'
    dsimp only at h'
    rw [h', htr1]
  rcases hpr : processResults target tfs results bs (some b) st2 with ⟨bs2, bf2, st3⟩
  dsimp only
  have hfound : st3.shared.foundTarget = true := by
    have h' := processResults_found target tfs results bs (some b) st2
      (by rw [hres]; exact hhit)
    rw [hpr] at h'
    exact h'
  have htr3 : trialsOf st3.trace = trialsOf st.trace ++ tfs.map (fun lt => lt.1) := by
    have h' := processResults_trace target tfs results bs (some b) st2
    rw [hpr] at h'
    dsimp only at h'
    rw [h', htr2]
  simp only [hfound, if_true, finishSweep]
  refine ⟨trivial, ?_⟩
  intro l hl
  rw [htr3] at hl
  rcases List.mem_append.mp hl with h' | h'
  · exact Or.inl h'
  · right
    rcases List.mem_map.mp h' with ⟨lt, hlt, rfl⟩
    exact hlv lt hlt

/-- Witness for the amended C5: the `wenvSweep` worker's first chunk, whose
lossy=30 trial reaches the target. -/
theorem c5_chunk_stop_wit :
    (lossySweep wenvSweep 500 lossyChunks (initState 7) 0 600
      (some { path := 1 })).2.shared.foundTarget = true ∧
    ∀ l ∈ trialsOf (lossySweep wenvSweep 500 lossyChunks (initState 7) 0 600
      (some { path := 1 })).2.trace,
      l ∈ trialsOf (initState 7).trace ∨ l ∈ [30, 60] := by
  have h := c5_chunk_stop wenvSweep 500 [30, 60]
    [[90, 120], [150, 180], [210, 240]] (initState 7) 0 600 { path := 1 }
    rfl (by decide)
  exact h

end GifCompressor
